import Mathlib

/-!
Verification of the tavily-SimpleQA evaluation orchestrator.

Shallow embedding of the repository's core: the answer normalizer
(`handlers/base_handler.py`), the per-provider search boundary
(`handlers/tavily_handler.py`, `handlers/perplexity_handler.py`,
`handlers/exa_handler.py`), the example scheduler and run coordinator
(`run_evaluation.py`), and the resumable store (`utils/utils.py`).

External oracles (the HTTP transport, the extraction LLM and the grader)
are modelled as explicit parameters: a handler's `search` becomes a pure
function of the transport outcome, and the per-example pipeline becomes a
pure function of the pipeline outcome (extracted answer, grader score and
grade label, or a raised exception).
-/

namespace SimpleQA

/-! ## Data model -/

/-- One dataset example as built by `prepare_examples` in `utils/utils.py`:
the dict `{"question": row["problem"], "answer": row["answer"], "index": int(row["index"])}`. -/
structure Example where
  question : String
  answer : String
  index : Nat
deriving Repr, DecidableEq

/-- One per-example result row, as built in `process_example`
(`run_evaluation.py` lines 89-96 on success, 106-114 on failure).
The `error` field is present only on the failure path. -/
structure EvaluationRecord where
  index : Nat
  question : String
  reference_answer : String
  predicted_answer : String
  is_correct : Bool
  grade : String
  error : Option String := none
deriving Repr, DecidableEq

/-! ## Answer normalizer (`handlers/base_handler.py`) -/

/-- `ProviderHandler._format_search_results_for_prompt`:
`"\n".join(f"\n**Document {i + 1}.** Source: {url}\nContent: {content}" for i, (url, content) in enumerate(search_results))`. -/
def formatSearchResultsForPrompt (search_results : List (String × String)) : String :=
  String.intercalate "\n"
    (search_results.enum.map
      (fun p =>
        "\n**Document " ++ toString (p.1 + 1) ++ ".** Source: " ++ p.2.1
          ++ "\nContent: " ++ p.2.2))

/-! ## Provider handler search boundary

Each concrete handler's `search` issues one HTTP POST inside a
`try`/`except`.  The transport outcome is modelled explicitly: either the
request machinery raised an exception, or a response with a status code and
a parsed JSON payload came back. -/

/-- Outcome of the single HTTP request a handler's `search` makes:
an exception anywhere in the `try` block, or a response with a status
code and a decoded payload. -/
inductive HttpOutcome (α : Type) where
  | exn : HttpOutcome α
  | response : Nat → α → HttpOutcome α
deriving Repr, DecidableEq

/-- The transport failed: an exception was raised, or the HTTP status
was not 200 (every handler checks `response.status != 200`). -/
def HttpOutcome.failed {α : Type} : HttpOutcome α → Prop
  | .exn => True
  | .response status _ => status ≠ 200

instance {α : Type} (o : HttpOutcome α) : Decidable o.failed := by
  cases o with
  | exn => exact isTrue trivial
  | response s p => exact inferInstanceAs (Decidable (s ≠ 200))

/-- What a handler's `search` returns: the dict `{"answer": ..,
"search_response": ..}` on success.  On failure every handler returns
`answer = ""` together with a `None` payload (Tavily under the key
`raw_response`, Perplexity and Exa under `search_response`); both are
modelled as `raw = none`. -/
structure ProviderResponse (α : Type) where
  answer : String
  raw : Option α
deriving Repr, DecidableEq

/-- Parsed Tavily JSON payload: an optional `answer` field and the
`results` list, each result reduced to its `(url, content)` pair. -/
structure TavilyPayload where
  answer : Option String
  results : List (String × String)
deriving Repr, DecidableEq

/-- `TavilyHandler.search` (`handlers/tavily_handler.py` lines 36-82):
on any exception or non-200 status returns `{"answer": "", "raw_response": None}`;
on success, `answer = response_data.get("answer", "")` when
`is_llm_response` else `""`, with the payload attached. -/
def TavilyHandler.search (is_llm_response : Bool)
    (o : HttpOutcome TavilyPayload) : ProviderResponse TavilyPayload :=
  match o with
  | .exn => ⟨"", none⟩
  | .response status payload =>
      if status ≠ 200 then ⟨"", none⟩
      else ⟨if is_llm_response then payload.answer.getD "" else "", some payload⟩

/-- Parsed Perplexity JSON payload: the optional `citations` list and the
`choices` list, each choice reduced to its `message.content` string
(`""` when the field is missing, matching `choice.get("message", {}).get("content", "")`). -/
structure PerplexityPayload where
  citations : Option (List String)
  choices : List String
deriving Repr, DecidableEq

/-- `PerplexityHandler._extract_sources`: formats the citations as
`"[1] c1\n[2] c2\n..."`, or `""` when the `citations` field is absent. -/
def PerplexityHandler.extractSources (citations : Option (List String)) : String :=
  match citations with
  | some cs =>
      String.join (cs.enum.map (fun p => "[" ++ toString (p.1 + 1) ++ "] " ++ p.2 ++ "\n"))
  | none => ""

/-- `PerplexityHandler._construct_answer`: concatenates the non-empty
choice contents, then appends `"\nSources:\n" ++ sources` when `sources`
is non-empty. -/
def PerplexityHandler.constructAnswer (choices : List String) (sources : String) : String :=
  let answer := choices.foldl (fun acc msg => if msg ≠ "" then acc ++ msg else acc) ""
  if sources ≠ "" then answer ++ "\nSources:\n" ++ sources else answer

/-- `PerplexityHandler.search` (`handlers/perplexity_handler.py` lines 38-100):
on any exception or non-200 status returns `{"answer": "", "search_response": None}`;
on success builds the answer from the choices and citations. -/
def PerplexityHandler.search (o : HttpOutcome PerplexityPayload) :
    ProviderResponse PerplexityPayload :=
  match o with
  | .exn => ⟨"", none⟩
  | .response status payload =>
      if status ≠ 200 then ⟨"", none⟩
      else
        let sources := PerplexityHandler.extractSources payload.citations
        ⟨PerplexityHandler.constructAnswer payload.choices sources, some payload⟩

/-- Parsed Exa JSON payload: an optional `answer` field and the `results`
list, each result reduced to its `(url, text)` pair. -/
structure ExaPayload where
  answer : Option String
  results : List (String × String)
deriving Repr, DecidableEq

/-- `ExaHandler.search` (`handlers/exa_handler.py` lines 33-81):
on any exception or non-200 status returns `{"answer": "", "search_response": None}`;
on success, `answer = response_data.get("answer", "")` with the payload attached. -/
def ExaHandler.search (o : HttpOutcome ExaPayload) : ProviderResponse ExaPayload :=
  match o with
  | .exn => ⟨"", none⟩
  | .response status payload =>
      if status ≠ 200 then ⟨"", none⟩
      else ⟨payload.answer.getD "", some payload⟩

/-- `TavilyHandler.post_process`: `""` when the success payload is absent,
else the formatted `(url, content)` pairs of `search_response["results"]`. -/
def TavilyHandler.postProcess (resp : ProviderResponse TavilyPayload) : String :=
  match resp.raw with
  | none => ""
  | some payload => formatSearchResultsForPrompt payload.results

/-- `ExaHandler.post_process`: `""` when the success payload is absent,
else the formatted `(url, text)` pairs of `search_response["results"]`. -/
def ExaHandler.postProcess (resp : ProviderResponse ExaPayload) : String :=
  match resp.raw with
  | none => ""
  | some payload => formatSearchResultsForPrompt payload.results

/-! ## Claims C4 and C5 -/

/-- C4: the answer normalizer renders `(url, content)` documents in
original order with 1-based numbering: on
`[("https://a", "X"), ("https://b", "Y")]` it produces exactly
`"\n**Document 1.** Source: https://a\nContent: X\n\n**Document 2.** Source: https://b\nContent: Y"`,
and on the empty document list it produces the empty string. -/
theorem c4_format_documents :
    formatSearchResultsForPrompt [("https://a", "X"), ("https://b", "Y")] =
      "\n**Document 1.** Source: https://a\nContent: X\n\n**Document 2.** Source: https://b\nContent: Y"
    ∧ formatSearchResultsForPrompt [] = "" := by
  exact ⟨rfl, rfl⟩

/-- C5: for every query (hence every transport outcome), the Tavily,
Perplexity and Exa handlers' `search` never raises past its boundary: on
any exception or non-success HTTP status each returns the response with
`answer = ""` and an absent (`none`) raw payload. -/
theorem c5_search_error_boundary (is_llm_response : Bool)
    (ot : HttpOutcome TavilyPayload) (op : HttpOutcome PerplexityPayload)
    (oe : HttpOutcome ExaPayload)
    (ht : ot.failed) (hp : op.failed) (he : oe.failed) :
    TavilyHandler.search is_llm_response ot = ⟨"", none⟩
    ∧ PerplexityHandler.search op = ⟨"", none⟩
    ∧ ExaHandler.search oe = ⟨"", none⟩ := by
  refine ⟨?_, ?_, ?_⟩
  · cases ot with
    | exn => rfl
    | response s p => simp [TavilyHandler.search, HttpOutcome.failed] at ht ⊢; simp [ht]
  · cases op with
    | exn => rfl
    | response s p => simp [PerplexityHandler.search, HttpOutcome.failed] at hp ⊢; simp [hp]
  · cases oe with
    | exn => rfl
    | response s p => simp [ExaHandler.search, HttpOutcome.failed] at he ⊢; simp [he]

/-- C5 witness: concrete failed outcomes (an exception for Tavily, an
HTTP 500 for Perplexity, an HTTP 404 for Exa) all map to the empty-answer,
absent-payload response. -/
theorem c5_search_error_boundary_witness :
    TavilyHandler.search true (HttpOutcome.exn) = ⟨"", none⟩
    ∧ PerplexityHandler.search (HttpOutcome.response 500 ⟨none, []⟩) = ⟨"", none⟩
    ∧ ExaHandler.search (HttpOutcome.response 404 ⟨none, []⟩) = ⟨"", none⟩ :=
  c5_search_error_boundary true HttpOutcome.exn
    (HttpOutcome.response 500 ⟨none, []⟩) (HttpOutcome.response 404 ⟨none, []⟩)
    trivial (by decide) (by decide)

/-! ## Rounding

Python's `round(x, 3)` rounds half to even.  Ratios are embedded as exact
rationals, so `round(x, 3)` becomes round-half-to-even at the third
decimal. -/

/-- Round a rational to the nearest integer, ties to even
(the rounding of Python's builtin `round`). -/
def roundHalfEven (q : ℚ) : ℤ :=
  let f := ⌊q⌋
  if q - f < 1/2 then f
  else if (1 : ℚ)/2 < q - f then f + 1
  else if Even f then f else f + 1

/-- Python's `round(q, 3)`: round half to even at the third decimal. -/
def round3 (q : ℚ) : ℚ := (roundHalfEven (q * 1000) : ℚ) / 1000

/-! ## Example scheduler (`run_evaluation.py`, `evaluate_provider`)

The external pipeline of one example — `search_handler.search`, the
post-processing, `post_processor.extract_answer` and
`evaluator.evaluate` — is abstracted as one oracle outcome: either every
stage succeeded, yielding the extracted answer together with the grader's
score and grade label, or some stage raised, yielding the exception's
message.  `process_example`'s control flow on that outcome is translated
verbatim from `run_evaluation.py` lines 52-115. -/

/-- Outcome of the search → post-process → extract → grade pipeline of one
example: `ok answer score grade` when every awaited stage succeeded
(`answer` the extracted answer, `score`/`grade` the grader's
`evaluation_result['score']` / `['value']`), `err msg` when any stage
raised an exception with message `msg`. -/
inductive PipelineOutcome where
  | ok (answer : String) (score : ℚ) (grade : String)
  | err (msg : String)
deriving Repr, DecidableEq

/-- Effect of one `process_example` task: the record appended to the
in-memory `results` list, the record passed to `save_result` (durable
log append) when any, and the increment applied to `correct_count`. -/
structure StepEffect where
  record : EvaluationRecord
  saved : Option EvaluationRecord
  correctDelta : Nat
deriving Repr, DecidableEq

/-- `process_example` (`run_evaluation.py` lines 52-115) as a function of
the pipeline outcome.  On success (lines 83-102): `is_correct :=
(score == 1.0)`, `correct_count` bumped when correct, the record appended
to `results` and written durably via `save_result`.  On an exception
(lines 104-115): an `ERROR` record is appended to `results` only —
the `except` branch contains no `save_result` call. -/
def process_example (ex : Example) (o : PipelineOutcome) : StepEffect :=
  match o with
  | .ok answer score grade =>
      let is_correct := decide (score = 1)
      let r : EvaluationRecord :=
        ⟨ex.index, ex.question, ex.answer, answer, is_correct, grade, none⟩
      ⟨r, some r, if is_correct then 1 else 0⟩
  | .err msg =>
      ⟨⟨ex.index, ex.question, ex.answer, "ERROR", false, "ERROR", some msg⟩, none, 0⟩

/-- The aggregate a provider's evaluation returns
(`run_evaluation.py` lines 123-129). -/
structure ProviderResult where
  provider : String
  results : List EvaluationRecord
  accuracy : ℚ
  correct_count : Nat
  total_count : Nat
deriving Repr, DecidableEq

/-- `evaluate_provider` (`run_evaluation.py` lines 40-129) over a fixed
pipeline oracle (one outcome per example index).  Returns the
`ProviderResult` dict together with the sequence of records durably
appended via `save_result`.  The `results` list order is completion
order; here the examples are processed in the order of the given list,
which stands for an arbitrary completion order (the aggregate counts do
not depend on it). -/
def evaluate_provider (provider_name : String)
    (oracle : Nat → PipelineOutcome) (examples : List Example) :
    ProviderResult × List EvaluationRecord :=
  let effects := examples.map (fun ex => process_example ex (oracle ex.index))
  let correct_count : ℕ := (effects.map (·.correctDelta)).sum
  let accuracy : ℚ :=
    if examples.length ≠ 0 then (correct_count : ℚ) / examples.length else 0
  (⟨provider_name, effects.map (·.record), round3 accuracy, correct_count, examples.length⟩,
    effects.filterMap (·.saved))

/-! ## Claims C1 and C3 -/

/-- Whether the pipeline outcome for an example counts as correct:
it succeeded and the grader's score was exactly 1.0. -/
def outcomeCorrect (o : PipelineOutcome) : Bool :=
  match o with
  | .ok _ score _ => decide (score = 1)
  | .err _ => false

/-- C1 (code divergence): on a failed example, `process_example` builds
the `ERROR` record (`predicted_answer = "ERROR"`, `grade = "ERROR"`) but
appends it only to the in-memory `results` list — `save_result` is never
called on the failure path, so nothing reaches the durable record log;
a one-example run whose pipeline raises produces an empty durable log. -/
theorem c1_error_record_not_persisted :
    (process_example ⟨"q", "a", 0⟩ (PipelineOutcome.err "boom")).record =
      ⟨0, "q", "a", "ERROR", false, "ERROR", some "boom"⟩
    ∧ (process_example ⟨"q", "a", 0⟩ (PipelineOutcome.err "boom")).saved = none
    ∧ (evaluate_provider "tavily" (fun _ => PipelineOutcome.err "boom") [⟨"q", "a", 0⟩]).2 = []
    ∧ ∀ (ex : Example) (msg : String), (process_example ex (PipelineOutcome.err msg)).saved = none :=
  ⟨rfl, rfl, rfl, fun _ _ => rfl⟩

/-- The `correct_count` increment of one example task is 1 exactly when
its pipeline outcome was graded correct. -/
theorem process_example_correctDelta (ex : Example) (o : PipelineOutcome) :
    (process_example ex o).correctDelta = if outcomeCorrect o then 1 else 0 := by
  cases o with
  | ok a s g => by_cases hs : s = 1 <;> simp [process_example, outcomeCorrect, hs]
  | err m => rfl

/-- Summing the per-task `correct_count` increments counts the examples
whose outcome was graded correct. -/
theorem sum_correctDelta (oracle : ℕ → PipelineOutcome) (examples : List Example) :
    ((examples.map (fun ex => process_example ex (oracle ex.index))).map (·.correctDelta)).sum
      = examples.countP (fun ex => outcomeCorrect (oracle ex.index)) := by
  induction examples with
  | nil => rfl
  | cons ex rest ih =>
      simp only [List.map_cons, List.sum_cons, List.countP_cons, process_example_correctDelta]
      rw [ih]
      by_cases h : outcomeCorrect (oracle ex.index) <;> simp [h, Nat.add_comm]

/-- C3: the `ProviderResult` of every provider evaluation satisfies
`accuracy = round3 (correct_count / total_count)` (with `accuracy = 0` on
an empty example set), `correct_count` counts exactly the examples whose
grader score was 1.0, and every failed (exception) example is counted in
`total_count` but never in `correct_count`. -/
theorem c3_accuracy_invariant (provider_name : String)
    (oracle : Nat → PipelineOutcome) (examples : List Example) :
    (evaluate_provider provider_name oracle examples).1.accuracy =
      round3 (((evaluate_provider provider_name oracle examples).1.correct_count : ℚ) /
        ((evaluate_provider provider_name oracle examples).1.total_count : ℚ))
    ∧ (examples = [] → (evaluate_provider provider_name oracle examples).1.accuracy = 0)
    ∧ (evaluate_provider provider_name oracle examples).1.correct_count =
        examples.countP (fun ex => outcomeCorrect (oracle ex.index))
    ∧ (evaluate_provider provider_name oracle examples).1.total_count = examples.length := by
  refine ⟨?_, ?_, ?_, rfl⟩
  · by_cases h : examples.length = 0
    · simp [evaluate_provider, h, List.length_eq_zero.mp h]
    · simp [evaluate_provider, h]
  · intro h
    subst h
    simp [evaluate_provider, round3, roundHalfEven]
  · exact sum_correctDelta oracle examples

/-- C3 witness: a one-example run graded 1.0 satisfies the accuracy
invariant at its concrete counts, and an empty run has accuracy 0. -/
theorem c3_accuracy_invariant_witness :
    (evaluate_provider "tavily" (fun _ => PipelineOutcome.ok "Paris" 1 "CORRECT")
        [⟨"q", "Paris", 0⟩]).1.accuracy =
      round3 (((evaluate_provider "tavily" (fun _ => PipelineOutcome.ok "Paris" 1 "CORRECT")
          [⟨"q", "Paris", 0⟩]).1.correct_count : ℚ) /
        ((evaluate_provider "tavily" (fun _ => PipelineOutcome.ok "Paris" 1 "CORRECT")
          [⟨"q", "Paris", 0⟩]).1.total_count : ℚ))
    ∧ (evaluate_provider "perplexity" (fun _ => PipelineOutcome.err "x")
        ([] : List Example)).1.accuracy = 0 :=
  ⟨(c3_accuracy_invariant "tavily" (fun _ => PipelineOutcome.ok "Paris" 1 "CORRECT")
      [⟨"q", "Paris", 0⟩]).1,
   (c3_accuracy_invariant "perplexity" (fun _ => PipelineOutcome.err "x") []).2.1 rfl⟩

/-! ## Resumable store (`utils/utils.py`, `prepare_examples`)

The filesystem is modelled as a map from provider name to the provider's
record-log contents when the file `{results_dir}/{provider}_results.csv`
exists (`none` when it does not). -/

/-- The per-provider body of `prepare_examples` (`utils/utils.py` lines
122-148).  Full schedule when `not rerun`, or `random_sample is not None
and random_sample > 0`, or the provider's results file does not exist;
otherwise the stored rows with `grade != 'ERROR'` give the processed
indices and the dataset rows with those indices are dropped. -/
def prepare_examples_provider (df : List Example) (rerun : Bool)
    (log : Option (List EvaluationRecord)) (random_sample : Option ℤ) : List Example :=
  if !rerun
      || (match random_sample with | some n => decide (0 < n) | none => false)
      || log.isNone then
    df
  else
    match log with
    | some rows =>
        let processed_indices := (rows.filter (fun r => r.grade ≠ "ERROR")).map (·.index)
        df.filter (fun ex => !(processed_indices.contains ex.index))
    | none => df

/-- `prepare_examples` (`utils/utils.py` lines 113-150): one filtered
example list per configured provider name. -/
def prepare_examples (df : List Example) (provider_names : List String) (rerun : Bool)
    (logs : String → Option (List EvaluationRecord)) (random_sample : Option ℤ) :
    List (String × List Example) :=
  provider_names.map (fun p => (p, prepare_examples_provider df rerun (logs p) random_sample))

/-! ## Claim C2 -/

/-- C2: on a resume run (`rerun = true`) without random sampling, a
provider with an existing record log schedules exactly the dataset rows
whose index has no stored row graded other than `"ERROR"` (so indices
previously graded `"ERROR"`, and indices absent from the log, are
re-scheduled); and a positive random-sample request schedules the full
dataset regardless of the log. -/
theorem c2_resume_filter (df : List Example) (rows : List EvaluationRecord) :
    (∀ ex : Example,
      ex ∈ prepare_examples_provider df true (some rows) none ↔
        ex ∈ df ∧ ¬ ∃ r ∈ rows, r.index = ex.index ∧ r.grade ≠ "ERROR")
    ∧ ∀ (n : ℤ), 0 < n → ∀ log : Option (List EvaluationRecord),
        prepare_examples_provider df true log (some n) = df := by
  constructor
  · intro ex
    have hbranch : prepare_examples_provider df true (some rows) none =
        df.filter (fun e =>
          !(((rows.filter (fun r => r.grade ≠ "ERROR")).map (·.index)).contains e.index)) := rfl
    rw [hbranch]
    simp only [List.mem_filter, Bool.not_eq_true', List.contains_eq_any_beq,
      List.any_eq_false, List.mem_map, List.mem_filter, decide_eq_true_eq, beq_eq_false_iff_ne,
      ne_eq, not_exists, not_and]
    constructor
    · rintro ⟨hmem, hall⟩
      refine ⟨hmem, fun r hr hidx => ?_⟩
      intro hgr
      exact hall ex.index ⟨r, ⟨hr, hgr⟩, hidx⟩ (by simp)
    · rintro ⟨hmem, hnone⟩
      refine ⟨hmem, fun i hi => ?_⟩
      obtain ⟨r, ⟨hr, hgr⟩, hidx⟩ := hi
      intro hie
      have hEq : ex.index = i := by simpa using hie
      exact hnone r hr (hidx.trans hEq.symm) hgr
  · intro n hn log
    simp [prepare_examples_provider, hn]

/-- C2 witness: on a concrete resume run with log rows
`(index 0, grade "CORRECT")` and `(index 1, grade "ERROR")` over a
three-row dataset, exactly index 0 is excluded, and a random sample of 2
schedules everything. -/
theorem c2_resume_filter_witness :
    ((⟨"q1", "a1", 1⟩ : Example) ∈ prepare_examples_provider
        [⟨"q0", "a0", 0⟩, ⟨"q1", "a1", 1⟩, ⟨"q2", "a2", 2⟩] true
        (some [⟨0, "q0", "a0", "p0", true, "CORRECT", none⟩,
               ⟨1, "q1", "a1", "p1", false, "ERROR", none⟩]) none
      ↔ ((⟨"q1", "a1", 1⟩ : Example) ∈
            ([⟨"q0", "a0", 0⟩, ⟨"q1", "a1", 1⟩, ⟨"q2", "a2", 2⟩] : List Example)
          ∧ ¬ ∃ r ∈ [(⟨0, "q0", "a0", "p0", true, "CORRECT", none⟩ : EvaluationRecord),
               ⟨1, "q1", "a1", "p1", false, "ERROR", none⟩],
              r.index = 1 ∧ r.grade ≠ "ERROR"))
    ∧ prepare_examples_provider [⟨"q0", "a0", 0⟩] true
        (some [⟨0, "q0", "a0", "p0", true, "CORRECT", none⟩]) (some 2) = [⟨"q0", "a0", 0⟩] :=
  ⟨(c2_resume_filter [⟨"q0", "a0", 0⟩, ⟨"q1", "a1", 1⟩, ⟨"q2", "a2", 2⟩]
      [⟨0, "q0", "a0", "p0", true, "CORRECT", none⟩,
       ⟨1, "q1", "a1", "p1", false, "ERROR", none⟩]).1 ⟨"q1", "a1", 1⟩,
   (c2_resume_filter [⟨"q0", "a0", 0⟩]
      [⟨0, "q0", "a0", "p0", true, "CORRECT", none⟩]).2 2 (by decide)
      (some [⟨0, "q0", "a0", "p0", true, "CORRECT", none⟩])⟩

/-! ## Run summary (`utils/utils.py`, `save_summary`) -/

/-- One row of `summary.csv`
(fieldnames `provider, accuracy, correct_count, total_count, timestamp`). -/
structure SummaryRow where
  provider : String
  accuracy : ℚ
  correct_count : Nat
  total_count : Nat
  timestamp : String
deriving Repr, DecidableEq

/-- The summary row `save_summary` computes for one provider
(`utils/utils.py` lines 34-49): re-reads the provider's full results CSV,
takes `examples_count = len(rows)` and
`correct_count = len(rows where is_correct == True)`, and recomputes
`accuracy = round(correct_count / examples_count, 3)` (0.0 when the log
is empty). -/
def summaryRowFor (provider_name : String) (log : List EvaluationRecord)
    (timestamp : String) : SummaryRow :=
  let examples_count := log.length
  let correct_count := (log.filter (fun r => r.is_correct == true)).length
  let accuracy : ℚ :=
    if examples_count > 0 then (correct_count : ℚ) / examples_count else 0
  ⟨provider_name, round3 accuracy, correct_count, examples_count, timestamp⟩

/-- `save_summary` (`utils/utils.py` lines 17-51): writes `summary.csv`
once, iterating over the `provider_results` mapping in order and deriving
each row from the provider's durable record log
(`{output_dir}/{provider}_results.csv`), never from the in-memory
`ProviderResult`.  The filesystem is the map `logs` from provider name to
that file's rows; the shared `timestamp` is taken once. -/
def save_summary (provider_results : List (String × ProviderResult))
    (logs : String → List EvaluationRecord) (timestamp : String) : List SummaryRow :=
  provider_results.map (fun p => summaryRowFor p.1 (logs p.1) timestamp)

/-! ## Claim C6 -/

/-- C6: the summary has exactly one row per provider, in order; each
row's `total_count` is the number of rows of that provider's durable
record log, its `correct_count` the number of log rows with
`is_correct = true`, and its `accuracy` the recomputed rounded ratio —
and the summary does not depend on the in-memory `ProviderResult`s at
all: any two `provider_results` mappings with the same provider names
yield the same summary over the same logs. -/
theorem c6_summary_recomputed_from_log
    (provider_results provider_results' : List (String × ProviderResult))
    (logs : String → List EvaluationRecord) (timestamp : String)
    (hsame : provider_results.map Prod.fst = provider_results'.map Prod.fst) :
    (save_summary provider_results logs timestamp).map SummaryRow.provider =
      provider_results.map Prod.fst
    ∧ (save_summary provider_results logs timestamp).length = provider_results.length
    ∧ (∀ row ∈ save_summary provider_results logs timestamp,
        row.total_count = (logs row.provider).length
        ∧ row.correct_count = ((logs row.provider).filter (fun r => r.is_correct == true)).length
        ∧ row.accuracy = round3 (if (logs row.provider).length > 0 then
            (((logs row.provider).filter (fun r => r.is_correct == true)).length : ℚ) /
              ((logs row.provider).length : ℚ) else 0))
    ∧ save_summary provider_results logs timestamp =
        save_summary provider_results' logs timestamp := by
  refine ⟨?_, ?_, ?_, ?_⟩
  · simp [save_summary, summaryRowFor]
  · simp [save_summary]
  · intro row hrow
    simp only [save_summary, List.mem_map] at hrow
    obtain ⟨p, _, hp⟩ := hrow
    subst hp
    exact ⟨rfl, rfl, rfl⟩
  · have h1 : save_summary provider_results logs timestamp =
        (provider_results.map Prod.fst).map (fun name => summaryRowFor name (logs name) timestamp) := by
      simp [save_summary, List.map_map]
    have h2 : save_summary provider_results' logs timestamp =
        (provider_results'.map Prod.fst).map (fun name => summaryRowFor name (logs name) timestamp) := by
      simp [save_summary, List.map_map]
    rw [h1, h2, hsame]

/-- C6 witness: a concrete one-provider summary whose in-memory result
claims 5 correct of 10, while its durable log holds one correct row of
two — the summary reports the log's counts (1 of 2) and ignores the
in-memory numbers. -/
theorem c6_summary_recomputed_from_log_witness :
    (save_summary [("tavily", ⟨"tavily", [], 1/2, 5, 10⟩)]
        (fun _ => [⟨0, "q0", "a0", "p0", true, "CORRECT", none⟩,
                   ⟨1, "q1", "a1", "p1", false, "INCORRECT", none⟩]) "ts").map
      SummaryRow.provider = ["tavily"]
    ∧ ∀ row ∈ save_summary [("tavily", ⟨"tavily", [], 1/2, 5, 10⟩)]
        (fun _ => [⟨0, "q0", "a0", "p0", true, "CORRECT", none⟩,
                   ⟨1, "q1", "a1", "p1", false, "INCORRECT", none⟩]) "ts",
        row.total_count = 2 ∧ row.correct_count = 1 := by
  have h := c6_summary_recomputed_from_log
    [("tavily", ⟨"tavily", [], 1/2, 5, 10⟩)] [("tavily", ⟨"tavily", [], 1/2, 5, 10⟩)]
    (fun _ => [⟨0, "q0", "a0", "p0", true, "CORRECT", none⟩,
               ⟨1, "q1", "a1", "p1", false, "INCORRECT", none⟩]) "ts" rfl
  exact ⟨h.1, fun row hrow => ⟨(h.2.2.1 row hrow).1, (h.2.2.1 row hrow).2.1⟩⟩

/-! ## Dataset loader (`utils/utils.py`, `load_csv_data`) -/

/-- One raw CSV row: the required `problem` and `answer` columns. -/
structure DataRow where
  problem : String
  answer : String
deriving Repr, DecidableEq

/-- `df['index'] = range(len(df))` (`utils/utils.py` line 86): the
synthetic `index` column is attached to the FULL dataframe, before any
slicing or sampling, so it is each row's position in the full dataset. -/
def indexedRows (df : List DataRow) : List Example :=
  df.enum.map (fun p => ⟨p.2.problem, p.2.answer, p.1⟩)

/-- `load_csv_data` (`utils/utils.py` lines 54-106).  The `index` column
is attached first (line 86); then either `df.sample(min n total)` (the
random positions the sampler draws are the oracle `sample_pick`) or the
clamped slice `df.iloc[start_index:end_index]` with
`start_index = max(0, min(start_index, total_rows - 1))` and
`end_index = max(start_index + 1, min(end_index, total_rows))`. -/
def load_csv_data (df : List DataRow) (start_index : ℤ) (end_index : Option ℤ)
    (random_sample : Option ℤ) (sample_pick : List ℕ) : List Example :=
  let total_rows : ℤ := df.length
  let indexed := indexedRows df
  if (match random_sample with | some n => decide (0 < n) | none => false) then
    sample_pick.filterMap (fun i => indexed.get? i)
  else
    let e := end_index.getD total_rows
    let s1 := max 0 (min start_index (total_rows - 1))
    let e1 := max (s1 + 1) (min e total_rows)
    (indexed.drop s1.toNat).take (e1 - s1).toNat

/-! ## Claim C7 -/

/-- C7 counterexample: loading a three-row dataset with
`start_index = 1` returns examples whose `index` fields are `[1, 2]`,
not the zero-based positions `[0, 1]` after slicing that the claim
asserts — the synthetic index is assigned before slicing. -/
theorem c7_counterexample :
    ((load_csv_data [⟨"q0", "a0"⟩, ⟨"q1", "a1"⟩, ⟨"q2", "a2"⟩] 1 none none []).map
        Example.index = [1, 2])
    ∧ ¬ ((load_csv_data [⟨"q0", "a0"⟩, ⟨"q1", "a1"⟩, ⟨"q2", "a2"⟩] 1 none none []).map
        Example.index =
          List.range (load_csv_data [⟨"q0", "a0"⟩, ⟨"q1", "a1"⟩, ⟨"q2", "a2"⟩]
            1 none none []).length) := by
  constructor
  · rfl
  · decide

/-- Every example produced by `indexedRows` carries its position in the
full dataset as its `index`. -/
theorem mem_indexedRows (df : List DataRow) (ex : Example) (h : ex ∈ indexedRows df) :
    df[ex.index]? = some ⟨ex.question, ex.answer⟩ := by
  simp only [indexedRows, List.mem_map] at h
  obtain ⟨p, hp, hpe⟩ := h
  rw [List.mem_enum_iff_getElem?] at hp
  subst hpe
  simpa using hp

/-- C7 (amended): for every dataset load — sliced or sampled — each
returned example's `index` equals that row's zero-based position in the
FULL dataset before slicing/sampling: looking the index up in the
original rows recovers exactly the example's question and answer. -/
theorem c7_index_is_original_position (df : List DataRow) (start_index : ℤ)
    (end_index : Option ℤ) (random_sample : Option ℤ) (sample_pick : List ℕ)
    (ex : Example)
    (h : ex ∈ load_csv_data df start_index end_index random_sample sample_pick) :
    df[ex.index]? = some ⟨ex.question, ex.answer⟩ := by
  apply mem_indexedRows
  simp only [load_csv_data] at h
  split at h
  · simp only [List.mem_filterMap] at h
    obtain ⟨i, _, hi⟩ := h
    exact List.get?_mem hi
  · exact List.mem_of_mem_drop (List.mem_of_mem_take h)

/-- C7 witness: in the sliced three-row load above, the first returned
example is `⟨"q1", "a1", 1⟩` and looking up its index 1 in the full
dataset recovers row `⟨"q1", "a1"⟩`. -/
theorem c7_index_is_original_position_witness :
    ([⟨"q0", "a0"⟩, ⟨"q1", "a1"⟩, ⟨"q2", "a2"⟩] : List DataRow)[(⟨"q1", "a1", 1⟩ : Example).index]?
      = some ⟨"q1", "a1"⟩ :=
  c7_index_is_original_position [⟨"q0", "a0"⟩, ⟨"q1", "a1"⟩, ⟨"q2", "a2"⟩] 1 none none []
    ⟨"q1", "a1", 1⟩ (by decide)

/-! ## Handler construction and the run coordinator (`run_evaluation.py`) -/

/-- The handler classes `get_search_handlers` can instantiate. -/
inductive HandlerTag where
  | tavily
  | exa
  | gptr
  | perplexity
deriving Repr, DecidableEq

/-- ASCII lowercase of one character (`str.lower()` restricted to the
ASCII range the recognized provider names live in). -/
def lowerChar (c : Char) : Char :=
  if 65 ≤ c.toNat ∧ c.toNat ≤ 90 then Char.ofNat (c.toNat + 32) else c

/-- `provider_name.lower()` on ASCII names. -/
def lowerString (s : String) : String := String.mk (s.data.map lowerChar)

/-- The dispatch of `get_search_handlers` (`run_evaluation.py` lines
27-35): `provider_name.lower()` against the four recognized names;
anything else (including `serper` and `brave`, whose handler classes
exist in `handlers/`) falls through every branch and is silently
skipped. -/
def handlerFor (provider_name : String) : Option HandlerTag :=
  if lowerString provider_name = "tavily" then some HandlerTag.tavily
  else if lowerString provider_name = "exa" then some HandlerTag.exa
  else if lowerString provider_name = "gptr" then some HandlerTag.gptr
  else if lowerString provider_name = "perplexity" then some HandlerTag.perplexity
  else none

/-- `get_search_handlers` (`run_evaluation.py` lines 23-37): the list of
handlers constructed for the recognized configured names, in
configuration order. -/
def get_search_handlers (provider_names : List String) : List HandlerTag :=
  provider_names.filterMap handlerFor

/-- The positional pairing of `run_evaluation` (`run_evaluation.py`
lines 173 and 189): `zip(search_handlers, provider_names)` pairs the
FILTERED handler list with the UNFILTERED name list. -/
def handlerPairings (provider_names : List String) : List (HandlerTag × String) :=
  (get_search_handlers provider_names).zip provider_names

/-- Every configured provider name is scheduled with the handler
constructed for that very name: no name is dropped by the `zip`
truncation, and each pair's handler is the one its name dispatches to. -/
def correctlyAttributed (provider_names : List String) : Prop :=
  (handlerPairings provider_names).length = provider_names.length
  ∧ ∀ p ∈ handlerPairings provider_names, handlerFor p.2 = some p.1

/-! ## Claim C10 -/

/-- Misattribution lemma: whenever some unrecognized configured name
precedes a recognized one, the zip pairs some constructed handler with a
name that does not dispatch to it. -/
theorem handler_misattribution (names : List String) :
    ∀ (i j : ℕ), i < j →
      (∃ u, names.get? i = some u ∧ handlerFor u = none) →
      (∃ r, names.get? j = some r ∧ (handlerFor r).isSome) →
      ∃ p ∈ handlerPairings names, handlerFor p.2 ≠ some p.1 := by
  induction names with
  | nil =>
      intro i j _ hu _
      obtain ⟨u, hu1, _⟩ := hu
      simp at hu1
  | cons n ns ih =>
      intro i j hij hu hr
      obtain ⟨u, hu1, hu2⟩ := hu
      obtain ⟨r, hr1, hr2⟩ := hr
      cases h : handlerFor n with
      | none =>
          have hrns : r ∈ ns := by
            cases j with
            | zero => omega
            | succ j' => exact List.get?_mem (by simpa using hr1)
          have hne : ns.filterMap handlerFor ≠ [] := by
            intro hnil
            rw [List.filterMap_eq_nil_iff] at hnil
            rw [hnil r hrns] at hr2
            simp at hr2
          obtain ⟨t, rest, heq⟩ := List.exists_cons_of_ne_nil hne
          refine ⟨(t, n), ?_, by simp [h]⟩
          simp [handlerPairings, get_search_handlers, List.filterMap_cons, h, heq]
      | some t =>
          cases i with
          | zero =>
              simp only [List.get?_cons_zero, Option.some_inj] at hu1
              rw [← hu1] at hu2
              rw [h] at hu2
              cases hu2
          | succ i' =>
              cases j with
              | zero => omega
              | succ j' =>
                  obtain ⟨p, hp1, hp2⟩ :=
                    ih i' j' (by omega) ⟨u, by simpa using hu1, hu2⟩
                      ⟨r, by simpa using hr1, hr2⟩
                  refine ⟨p, ?_, hp2⟩
                  have : handlerPairings (n :: ns) = (t, n) :: handlerPairings ns := by
                    simp [handlerPairings, get_search_handlers, List.filterMap_cons, h]
                  rw [this]
                  exact List.mem_cons_of_mem _ hp1

/-- Alignment lemma: the zip pairing attributes every provider correctly
exactly when every configured name is recognized. -/
theorem correctlyAttributed_iff (names : List String) :
    correctlyAttributed names ↔ ∀ n ∈ names, (handlerFor n).isSome := by
  induction names with
  | nil => simp [correctlyAttributed, handlerPairings, get_search_handlers]
  | cons n ns ih =>
      cases h : handlerFor n with
      | some t =>
          have hp : handlerPairings (n :: ns) = (t, n) :: handlerPairings ns := by
            simp [handlerPairings, get_search_handlers, List.filterMap_cons, h]
          constructor
          · rintro ⟨hlen, hall⟩
            intro x hx
            rcases List.mem_cons.mp hx with rfl | hx
            · simp [h]
            · have hns : correctlyAttributed ns := by
                constructor
                · rw [hp] at hlen
                  simpa using hlen
                · intro p hp2
                  exact hall p (by rw [hp]; exact List.mem_cons_of_mem _ hp2)
              exact (ih.mp hns) x hx
          · intro hall
            have hns : correctlyAttributed ns := ih.mpr (fun x hx => hall x (List.mem_cons_of_mem n hx))
            constructor
            · rw [hp]
              simpa using hns.1
            · intro p hp2
              rw [hp, List.mem_cons] at hp2
              rcases hp2 with rfl | hp2
              · simpa using h
              · exact hns.2 p hp2
      | none =>
          have hlen : (handlerPairings (n :: ns)).length ≤ ns.length := by
            have hfm : (ns.filterMap handlerFor).length ≤ ns.length :=
              List.length_filterMap_le handlerFor ns
            simp only [handlerPairings, get_search_handlers, List.filterMap_cons, h,
              List.length_zip]
            omega
          constructor
          · rintro ⟨hl, _⟩
            exfalso
            rw [hl] at hlen
            simp at hlen
          · intro hall
            exfalso
            have := hall n (List.mem_cons_self n ns)
            rw [h] at this
            cases this

/-- C10: `get_search_handlers` recognizes exactly `tavily`, `exa`,
`gptr`, `perplexity` case-insensitively and silently skips all other
names (`serper` and `brave` included); the coordinator then zips the
filtered handler list against the unfiltered name list, so every
scheduler runs with the handler built for its own provider name if and
only if every configured name is recognized — and whenever an
unrecognized name precedes a recognized one, some constructed handler is
paired with a name that does not dispatch to it. -/
theorem c10_handler_dispatch_alignment :
    (handlerFor "serper" = none ∧ handlerFor "brave" = none
      ∧ handlerFor "Tavily" = some HandlerTag.tavily
      ∧ handlerFor "EXA" = some HandlerTag.exa
      ∧ handlerFor "gptr" = some HandlerTag.gptr
      ∧ handlerFor "Perplexity" = some HandlerTag.perplexity)
    ∧ (∀ names : List String,
        correctlyAttributed names ↔ ∀ n ∈ names, (handlerFor n).isSome)
    ∧ (∀ (names : List String) (i j : ℕ), i < j →
        (∃ u, names.get? i = some u ∧ handlerFor u = none) →
        (∃ r, names.get? j = some r ∧ (handlerFor r).isSome) →
        ∃ p ∈ handlerPairings names, handlerFor p.2 ≠ some p.1) :=
  ⟨⟨by decide, by decide, by decide, by decide, by decide, by decide⟩,
    correctlyAttributed_iff,
    fun names i j hij hu hr => handler_misattribution names i j hij hu hr⟩

/-- C10 witness: with configured names `["serper", "tavily"]`, the
unrecognized `serper` precedes the recognized `tavily`, and indeed the
Tavily handler ends up paired with the name `serper`. -/
theorem c10_handler_dispatch_alignment_witness :
    ∃ p ∈ handlerPairings ["serper", "tavily"], handlerFor p.2 ≠ some p.1 :=
  c10_handler_dispatch_alignment.2.2 ["serper", "tavily"] 0 1 (by decide)
    ⟨"serper", rfl, by decide⟩ ⟨"tavily", rfl, by decide⟩

/-! ## Claim C8: parallel vs sequential coordinator modes

`run_evaluation` (`run_evaluation.py` lines 170-197) drives one
`evaluate_provider` per `(handler, provider_name)` pair of
`zip(search_handlers, provider_names)`.  In parallel mode the results of
`asyncio.gather` (in task order) populate `provider_results` keyed by
`result["provider"]`; in sequential mode the loop populates it keyed by
`provider_name` directly.  Each provider's external outcomes are fixed by
the oracle, so both modes are pure folds over the same zip. -/

/-- The provider-name → `ProviderResult` mapping `run_evaluation` builds
(`run_evaluation.py` lines 170-197), in either mode. -/
def run_providers (parallel : Bool) (search_handlers : List HandlerTag)
    (provider_names : List String) (examplesFor : String → List Example)
    (oracle : HandlerTag → ℕ → PipelineOutcome) : List (String × ProviderResult) :=
  if parallel then
    ((search_handlers.zip provider_names).map
      (fun hp => (evaluate_provider hp.2 (oracle hp.1) (examplesFor hp.2)).1)).map
      (fun r => (r.provider, r))
  else
    (search_handlers.zip provider_names).map
      (fun hp => (hp.2, (evaluate_provider hp.2 (oracle hp.1) (examplesFor hp.2)).1))

/-- C8: for every provider configuration, example assignment and fixed
pipeline oracle, the parallel and sequential coordinator modes produce
the same provider-name-to-`ProviderResult` mapping. -/
theorem c8_parallel_sequential_equivalent (search_handlers : List HandlerTag)
    (provider_names : List String) (examplesFor : String → List Example)
    (oracle : HandlerTag → ℕ → PipelineOutcome) :
    run_providers true search_handlers provider_names examplesFor oracle =
      run_providers false search_handlers provider_names examplesFor oracle := by
  simp only [run_providers, if_pos, if_neg, List.map_map]
  rfl

/-! ## Claim C9: record-level atomicity of durable appends

`save_result` (`utils/utils.py` lines 161-175) is a plain synchronous
function: between its existence check and the final `writerow` there is
no `await`, so under asyncio's cooperative single-thread scheduling the
whole append runs inside one scheduler slice.  Each example task is
embedded as a list of atomic steps — its suspension points (`await
search`, the post-processing, `await evaluate`) and, on the success path,
the single `save_result` append.  A run of the provider's N sibling tasks
is an arbitrary interleaving of these steps. -/

/-- One atomic scheduler slice of an example task: a suspension point
with no durable effect, or the synchronous `save_result` body appending
one whole record. -/
inductive TaskStep where
  | await : TaskStep
  | write : EvaluationRecord → TaskStep
deriving Repr, DecidableEq

/-- `csv` field quoting (QUOTE_MINIMAL): quote when the field contains a
delimiter, a quote or a line break, doubling inner quotes. -/
def csvQuoteField (s : String) : String :=
  if s.contains ',' || s.contains '"' || s.contains '\n' || s.contains '\r' then
    "\"" ++ s.replace "\"" "\"\"" ++ "\""
  else s

/-- The header line `save_result` writes when the file does not exist. -/
def csvHeader : String :=
  "index,question,reference_answer,predicted_answer,is_correct,grade\r\n"

/-- One serialized record row as `csv.DictWriter.writerow` produces it
over the fieldnames of `save_result`. -/
def serializeRecord (r : EvaluationRecord) : String :=
  String.intercalate ","
    ([toString r.index, r.question, r.reference_answer, r.predicted_answer,
      if r.is_correct then "True" else "False", r.grade].map csvQuoteField) ++ "\r\n"

/-- The file effect of one `save_result` call (`utils/utils.py` lines
161-175): create the file with header plus the record when absent, else
append the single record row. -/
def save_result_write (file : Option String) (r : EvaluationRecord) : Option String :=
  match file with
  | none => some (csvHeader ++ serializeRecord r)
  | some s => some (s ++ serializeRecord r)

/-- The atomic-step program of one example task: its awaited suspension
points, then — only when the pipeline succeeded — the single
`save_result` append of its record (`process_example` performs no durable
write on the failure path). -/
def taskProgram (ex : Example) (o : PipelineOutcome) : List TaskStep :=
  match o with
  | .ok _ _ _ =>
      [TaskStep.await, TaskStep.await, TaskStep.await,
        TaskStep.write (process_example ex o).record]
  | .err _ => [TaskStep.await]

/-- One scheduler step: run the next atomic slice of task `i` (no effect
when `i` is invalid or task `i` has finished). -/
def execStep (tasks : List (List TaskStep)) (file : Option String) (i : ℕ) :
    List (List TaskStep) × Option String :=
  match tasks.get? i with
  | some (TaskStep.await :: rest) => (tasks.set i rest, file)
  | some (TaskStep.write r :: rest) => (tasks.set i rest, save_result_write file r)
  | _ => (tasks, file)

/-- Run an arbitrary interleaving (a sequence of task choices) of the
sibling tasks against the shared provider record file. -/
def execSchedule (tasks : List (List TaskStep)) (file : Option String) :
    List ℕ → List (List TaskStep) × Option String
  | [] => (tasks, file)
  | i :: rest => execSchedule (execStep tasks file i).1 (execStep tasks file i).2 rest

/-- Concatenation of a sequence of whole rows into file contents. -/
def concatRows : List String → String
  | [] => ""
  | s :: rest => s ++ concatRows rest

/-- Appending one more whole row to a concatenation of rows. -/
theorem concatRows_append_single (l : List String) (x : String) :
    concatRows (l ++ [x]) = concatRows l ++ x := by
  induction l with
  | nil => simp [concatRows]
  | cons s rest ih => simp [concatRows, ih, String.append_assoc]

/-- A well-formed provider record file: absent, or the header followed by
a concatenation of whole serialized records — no truncated, interleaved
or otherwise malformed row. -/
def wellFormedLog (file : Option String) : Prop :=
  file = none ∨ ∃ rs : List EvaluationRecord,
    file = some (csvHeader ++ concatRows (rs.map serializeRecord))

/-- A `save_result` append preserves record-file well-formedness. -/
theorem save_result_write_wellFormed (file : Option String) (r : EvaluationRecord)
    (h : wellFormedLog file) : wellFormedLog (save_result_write file r) := by
  rcases h with h | ⟨rs, h⟩
  · subst h
    refine Or.inr ⟨[r], ?_⟩
    simp [save_result_write, concatRows]
  · subst h
    refine Or.inr ⟨rs ++ [r], ?_⟩
    simp [save_result_write, concatRows_append_single, String.append_assoc]

/-- One scheduler step preserves record-file well-formedness, whatever
the pending tasks and the chosen task index. -/
theorem execStep_wellFormed (tasks : List (List TaskStep)) (file : Option String) (i : ℕ)
    (h : wellFormedLog file) : wellFormedLog (execStep tasks file i).2 := by
  unfold execStep
  rcases hget : tasks.get? i with _ | steps
  · exact h
  · rcases steps with _ | ⟨step, rest⟩
    · exact h
    · cases step with
      | await => exact h
      | write r => exact save_result_write_wellFormed file r h

/-- C9: starting from a fresh (absent) provider record file, any
interleaving of the scheduler slices of the provider's N sibling example
tasks leaves the durable record log well-formed: it is the header
followed by whole serialized records only — record-level append atomicity
holds under arbitrary cooperative concurrency. -/
theorem c9_append_atomicity (examples : List Example)
    (oracle : ℕ → PipelineOutcome) (schedule : List ℕ) :
    wellFormedLog
      (execSchedule (examples.map (fun ex => taskProgram ex (oracle ex.index)))
        none schedule).2 := by
  have hgen : ∀ (schedule : List ℕ) (tasks : List (List TaskStep)) (file : Option String),
      wellFormedLog file → wellFormedLog (execSchedule tasks file schedule).2 := by
    intro schedule
    induction schedule with
    | nil => intro tasks file h; exact h
    | cons i rest ih =>
        intro tasks file h
        exact ih (execStep tasks file i).1 (execStep tasks file i).2
          (execStep_wellFormed tasks file i h)
  exact hgen schedule _ none (Or.inl rfl)

end SimpleQA
